import Mathlib

/-!
Verification of the CodeTracker notification core.

Shallow embedding of `backend/notification_scheduler.py` and the probe logic
of `backend/server.py`.  Exceptions raised by the platform probes are
modelled with `Except String`; the dictionaries returned by
`NotificationScheduler.check_and_notify_user` become the `CheckResult`
structure (absent keys become `none`); the MongoDB query
`db.triggers.find(\x7b"trigger_time": now, "enabled": True\x7d).to_list(1000)`
becomes a filter followed by `take 1000`; the per-minute tick of
`process_triggers` becomes a function from the trigger store, the current
"HH:MM" string, and an insertion oracle (modelling whether each
`insert_one` call succeeds) to the list of notification-log records it
appends.
-/

/-- A notification trigger document, as created by the `NotificationTrigger`
model of `server.py` and read back by `process_triggers`. -/
structure Trigger where
  id : String
  platform : String
  username : String
  trigger_time : String
  enabled : Bool
  deriving Repr, DecidableEq

/-- One commit extracted from a GitHub push event payload
(`commit["sha"]`, `commit["message"]`, `commit["author"]["name"]`). -/
structure GHCommit where
  sha : String
  message : String
  author : String
  deriving Repr, DecidableEq

/-- One event from `GET /users/USERNAME/events`: its `type` field, its
`created_at` timestamp (modelled as seconds, an integer), the repository
name `event["repo"]["name"]`, and the commits of its push payload. -/
structure GHEvent where
  type : String
  created_at : Int
  repo_name : String
  commits : List GHCommit
  deriving Repr, DecidableEq

/-- The `CommitInfo` pydantic model of `server.py`. -/
structure CommitInfo where
  sha : String
  message : String
  author : String
  repository : String
  committed_date : Int
  url : String
  deriving Repr, DecidableEq

/-- The `GitHubStatus` pydantic model of `server.py`. -/
structure GitHubStatus where
  username : String
  has_commits_today : Bool
  commit_count : Nat
  commits : List CommitInfo
  check_timestamp : Int
  deriving Repr, DecidableEq

/-- The dictionary returned by `LeetCodeScraper.get_daily_challenge` on
success (the fields `get_potd_status` actually consumes). -/
structure DailyChallenge where
  date : String
  userStatus : String
  title : String
  difficulty : String
  deriving Repr, DecidableEq

/-- The `LeetCodeStatus` pydantic model of `server.py`. -/
structure LeetCodeStatus where
  username : String
  potd_solved : Bool
  potd_title : String
  potd_difficulty : String
  potd_date : String
  user_status : Option String
  check_timestamp : Int
  deriving Repr, DecidableEq

/-- The dictionary returned by `check_and_notify_user`.  The Python code
returns one of three dict shapes; keys absent from a shape are `none`. -/
structure CheckResult where
  type? : Option String
  message : Option String
  status : String
  error : Option String
  deriving Repr, DecidableEq

/-- The document inserted into `db.notification_logs` by
`process_triggers` (one per evaluated trigger). -/
structure NotificationRecord where
  trigger_id : String
  username : String
  platform : String
  checked_at : Int
  result : CheckResult
  deriving Repr, DecidableEq

/-- The two platform probes `check_and_notify_user` dispatches to
(`github_client.check_commits_today` and
`leetcode_scraper.get_potd_status`): each, given a username, either
returns a status or raises, the raised exception text being the
`Except.error` payload. -/
structure ProbeEnv where
  github : String → Except String GitHubStatus
  leetcode : String → Except String LeetCodeStatus

/-- The `CommitInfo(...)` constructed by `check_commits_today` for one
commit of a qualifying push event. -/
def mkCommitInfo (e : GHEvent) (c : GHCommit) : CommitInfo :=
  { sha := c.sha
    message := c.message
    author := c.author
    repository := e.repo_name
    committed_date := e.created_at
    url := "https://github.com/" ++ e.repo_name ++ "/commit/" ++ c.sha }

/-- The event loop of `GitHubAPIClient.check_commits_today`: skip events
whose `type` is not `"PushEvent"`, skip events with
`event_date < today_start`, and collect a `CommitInfo` for every commit
of the remaining push events, in order. -/
def todayCommitsOf (today_start : Int) : List GHEvent → List CommitInfo
  | [] => []
  | e :: l =>
    if e.type ≠ "PushEvent" then todayCommitsOf today_start l
    else if e.created_at < today_start then todayCommitsOf today_start l
    else e.commits.map (mkCommitInfo e) ++ todayCommitsOf today_start l

/-- `GitHubAPIClient.check_commits_today`, given the fetched event list
(`today_start` is `datetime.now(timezone.utc)` truncated to midnight,
`check_ts` the evaluation timestamp). -/
def check_commits_today (today_start : Int) (events : List GHEvent)
    (username : String) (check_ts : Int) : GitHubStatus :=
  let today_commits := todayCommitsOf today_start events
  { username := username
    has_commits_today := decide (0 < today_commits.length)
    commit_count := today_commits.length
    commits := today_commits
    check_timestamp := check_ts }

/-- `LeetCodeScraper.get_potd_status`, given the outcome of
`get_daily_challenge` (which may raise).  On success `potd_solved` is the
hard-coded `False` of the source; on failure the exception is re-raised
as an HTTP 500 error. -/
def get_potd_status (fetched : Except String DailyChallenge)
    (username : String) (check_ts : Int) : Except String LeetCodeStatus :=
  match fetched with
  | Except.error e => Except.error ("Error checking LeetCode POTD: " ++ e)
  | Except.ok d =>
      Except.ok
        { username := username
          potd_solved := false
          potd_title := d.title
          potd_difficulty := d.difficulty
          potd_date := d.date
          user_status := some d.userStatus
          check_timestamp := check_ts }

/-- The github-reminder dict of `check_and_notify_user`. -/
def githubReminder (username : String) : CheckResult :=
  { type? := some "github_reminder"
    message := some ("Hey " ++ username ++
      "! You haven\x27t made any commits today. Time to code! 💻")
    status := "pending"
    error := none }

/-- The leetcode-reminder dict of `check_and_notify_user`. -/
def leetcodeReminder (username potd_title : String) : CheckResult :=
  { type? := some "leetcode_reminder"
    message := some ("Hey " ++ username ++ "! Today\x27s LeetCode POTD \x27" ++
      potd_title ++ "\x27 is waiting for you! 🧠")
    status := "pending"
    error := none }

/-- The bare `\x7b"status": "completed"\x7d` dict. -/
def completedResult : CheckResult :=
  { type? := none, message := none, status := "completed", error := none }

/-- The `\x7b"status": "error", "error": str(e)\x7d` dict of the
`except` clause. -/
def errorResult (e : String) : CheckResult :=
  { type? := none, message := none, status := "error", error := some e }

/-- `NotificationScheduler.check_and_notify_user`: dispatch on the
`platform` string, probe, and turn the probe answer (or the caught
exception) into a result dict.  A platform that is neither `"github"`
nor `"leetcode"` falls through to `return \x7b"status": "completed"\x7d`. -/
def check_and_notify_user (env : ProbeEnv) (username platform : String) :
    CheckResult :=
  if platform = "github" then
    match env.github username with
    | Except.error e => errorResult e
    | Except.ok status =>
        if status.has_commits_today = false then githubReminder username
        else completedResult
  else if platform = "leetcode" then
    match env.leetcode username with
    | Except.error e => errorResult e
    | Except.ok status =>
        if status.potd_solved = false then
          leetcodeReminder username status.potd_title
        else completedResult
  else completedResult

/-- The MongoDB match condition of the `db.triggers.find` call in
`process_triggers`: `trigger_time == now` and `enabled == True`. -/
def isDue (now : String) (t : Trigger) : Bool :=
  t.trigger_time == now && t.enabled

/-- `db.triggers.find(\x7b...\x7d).to_list(1000)`: all store documents
matching the condition, capped at the first 1000. -/
def findDueTriggers (store : List Trigger) (now : String) : List Trigger :=
  (store.filter (isDue now)).take 1000

/-- The `notification_log` dict built for one trigger inside the loop of
`process_triggers`. -/
def evalRecord (env : ProbeEnv) (checkedAt : Int) (t : Trigger) :
    NotificationRecord :=
  { trigger_id := t.id
    username := t.username
    platform := t.platform
    checked_at := checkedAt
    result := check_and_notify_user env t.username t.platform }

/-- The `for trigger in triggers` loop of `process_triggers`: evaluate
the trigger, build the log dict, `insert_one` it.  `insertOk` tells
whether an insertion succeeds; an insertion failure raises out of the
loop into the cycle-level `except`, so every later trigger is skipped. -/
def insertLoop (insertOk : NotificationRecord → Bool) (env : ProbeEnv)
    (checkedAt : Int) : List Trigger → List NotificationRecord
  | [] => []
  | t :: l =>
      let r := evalRecord env checkedAt t
      if insertOk r then r :: insertLoop insertOk env checkedAt l else []

/-- `NotificationScheduler.process_triggers`, one tick: fetch the due
triggers for the current "HH:MM" string and run the evaluation loop.
The value is the list of records actually appended to
`db.notification_logs` during the tick. -/
def process_triggers (env : ProbeEnv) (store : List Trigger) (now : String)
    (checkedAt : Int) (insertOk : NotificationRecord → Bool) :
    List NotificationRecord :=
  insertLoop insertOk env checkedAt (findDueTriggers store now)

/-- A GitHub status with no commit today, as the probe returns for an
inactive user. -/
def ghStatusNone : GitHubStatus :=
  { username := "alice", has_commits_today := false, commit_count := 0
    commits := [], check_timestamp := 0 }

/-- A GitHub status with a commit today. -/
def ghStatusSome : GitHubStatus :=
  { username := "alice", has_commits_today := true, commit_count := 1
    commits := [], check_timestamp := 0 }

/-- A LeetCode status with the problem of the day unsolved. -/
def lcStatusUnsolved : LeetCodeStatus :=
  { username := "alice", potd_solved := false, potd_title := "Two Sum"
    potd_difficulty := "Easy", potd_date := "2026-10-12"
    user_status := some "NotStart", check_timestamp := 0 }

/-- A LeetCode status with the problem of the day solved. -/
def lcStatusSolved : LeetCodeStatus :=
  { username := "alice", potd_solved := true, potd_title := "Two Sum"
    potd_difficulty := "Easy", potd_date := "2026-10-12"
    user_status := some "Finish", check_timestamp := 0 }

/-- A probe environment where both probes raise. -/
def envIdle : ProbeEnv :=
  { github := fun _ => Except.error "GitHub API rate limit exceeded"
    leetcode := fun _ => Except.error "Failed to fetch LeetCode POTD" }

/-- A probe environment where both probes succeed and report no activity
today. -/
def envActive : ProbeEnv :=
  { github := fun _ => Except.ok ghStatusNone
    leetcode := fun _ => Except.ok lcStatusUnsolved }

/-- A probe environment where both probes succeed and report the activity
as already done today. -/
def envDone : ProbeEnv :=
  { github := fun _ => Except.ok ghStatusSome
    leetcode := fun _ => Except.ok lcStatusSolved }

/-- A due, enabled github trigger. -/
def trigX : Trigger :=
  { id := "a", platform := "github", username := "alice"
    trigger_time := "09:00", enabled := true }

/-- A second due, enabled trigger with a different id and user. -/
def trigY : Trigger :=
  { id := "b", platform := "github", username := "bob"
    trigger_time := "09:00", enabled := true }

/-- A store holding 1001 triggers that are all due at 09:00: a thousand
copies of `trigX` followed by `trigY`. -/
def bigStore : List Trigger := List.replicate 1000 trigX ++ [trigY]

/-- A sample daily challenge, as fetched by `get_daily_challenge`. -/
def dcSample : DailyChallenge :=
  { date := "2026-10-12", userStatus := "NotStart", title := "Two Sum"
    difficulty := "Easy" }

/-- The `LeetCodeStatus` that `get_potd_status` builds from `dcSample`. -/
def lcFromSample : LeetCodeStatus :=
  { username := "alice", potd_solved := false, potd_title := "Two Sum"
    potd_difficulty := "Easy", potd_date := "2026-10-12"
    user_status := some "NotStart", check_timestamp := 0 }

/-- A sample commit inside a push event payload. -/
def ghcSample : GHCommit := { sha := "s1", message := "fix", author := "alice" }

/-- A sample push event with timestamp 5, after a day start of 0. -/
def evSample : GHEvent :=
  { type := "PushEvent", created_at := 5, repo_name := "alice/repo"
    commits := [ghcSample] }

theorem insertLoop_eq_takeWhile (insertOk : NotificationRecord → Bool)
    (env : ProbeEnv) (checkedAt : Int) (l : List Trigger) :
    insertLoop insertOk env checkedAt l
      = (l.map (evalRecord env checkedAt)).takeWhile insertOk := by
  induction l with
  | nil => rfl
  | cons t l ih =>
      simp only [insertLoop, List.map_cons, List.takeWhile_cons]
      by_cases h : insertOk (evalRecord env checkedAt t)
      · simp [h, ih]
      · simp [h]

theorem insertLoop_all_ok (env : ProbeEnv) (checkedAt : Int)
    (l : List Trigger) :
    insertLoop (fun _ => true) env checkedAt l
      = l.map (evalRecord env checkedAt) := by
  induction l with
  | nil => rfl
  | cons t l ih => simp [insertLoop, ih]

theorem insertLoop_mem (insertOk : NotificationRecord → Bool)
    (env : ProbeEnv) (checkedAt : Int) (l : List Trigger)
    (r : NotificationRecord) (hr : r ∈ insertLoop insertOk env checkedAt l) :
    ∃ t, t ∈ l ∧ r = evalRecord env checkedAt t := by
  induction l with
  | nil => simp [insertLoop] at hr
  | cons t l ih =>
      simp only [insertLoop] at hr
      by_cases h : insertOk (evalRecord env checkedAt t)
      · rw [if_pos h] at hr
        rcases List.mem_cons.1 hr with h1 | h1
        · exact ⟨t, List.mem_cons_self t l, h1⟩
        · rcases ih h1 with ⟨u, hu, he⟩
          exact ⟨u, List.mem_cons_of_mem t hu, he⟩
      · rw [if_neg h] at hr
        simp at hr

theorem length_filter_map_evalRecord (env : ProbeEnv) (checkedAt : Int)
    (tid : String) (l : List Trigger) :
    (((l.map (evalRecord env checkedAt)).filter
        (fun r => r.trigger_id == tid)).length)
      = (l.filter (fun t => t.id == tid)).length := by
  induction l with
  | nil => rfl
  | cons t l ih =>
      simp only [List.map_cons, List.filter_cons]
      by_cases h : (t.id == tid) = true
      · have h2 : ((evalRecord env checkedAt t).trigger_id == tid) = true := h
        rw [if_pos h, if_pos h2, List.length_cons, List.length_cons, ih]
      · have h2 : ((evalRecord env checkedAt t).trigger_id == tid) = false :=
          Bool.eq_false_iff.2 (by simpa using h)
        rw [if_neg h, if_neg (by simp [h2]), ih]

theorem todayCommitsOf_date (today_start : Int) (l : List GHEvent) :
    ∀ c, c ∈ todayCommitsOf today_start l → today_start ≤ c.committed_date := by
  induction l with
  | nil => intro c hc; simp [todayCommitsOf] at hc
  | cons e l ih =>
      intro c hc
      by_cases ht : e.type = "PushEvent"
      · by_cases hd : e.created_at < today_start
        · rw [todayCommitsOf, if_neg (by simp [ht]), if_pos hd] at hc
          exact ih c hc
        · rw [todayCommitsOf, if_neg (by simp [ht]), if_neg hd] at hc
          rcases List.mem_append.1 hc with h1 | h1
          · rcases List.mem_map.1 h1 with ⟨g, _, hg⟩
            have : c.committed_date = e.created_at := by
              rw [← hg]; rfl
            rw [this]
            exact Int.not_lt.1 hd
          · exact ih c h1
      · rw [todayCommitsOf, if_pos (by simp [ht])] at hc
        exact ih c hc

theorem todayCommitsOf_ne_nil (today_start : Int) (l : List GHEvent) :
    todayCommitsOf today_start l ≠ [] ↔
      ∃ e, e ∈ l ∧ e.type = "PushEvent" ∧ today_start ≤ e.created_at ∧
        e.commits ≠ [] := by
  induction l with
  | nil => simp [todayCommitsOf]
  | cons e l ih =>
      by_cases ht : e.type = "PushEvent"
      · by_cases hd : e.created_at < today_start
        · rw [todayCommitsOf, if_neg (by simp [ht]), if_pos hd, ih]
          constructor
          · rintro ⟨f, hf, hp⟩
            exact ⟨f, List.mem_cons_of_mem e hf, hp⟩
          · rintro ⟨f, hf, hp⟩
            rcases List.mem_cons.1 hf with h1 | h1
            · exfalso
              rw [h1] at hp
              exact Int.not_le.2 hd hp.2.1
            · exact ⟨f, h1, hp⟩
        · rw [todayCommitsOf, if_neg (by simp [ht]), if_neg hd]
          constructor
          · intro hne
            by_cases hcm : e.commits = []
            · have : todayCommitsOf today_start l ≠ [] := by
                intro h0
                apply hne
                simp [hcm, h0]
              rcases ih.1 this with ⟨f, hf, hp⟩
              exact ⟨f, List.mem_cons_of_mem e hf, hp⟩
            · exact ⟨e, List.mem_cons_self e l, ht, Int.not_lt.1 hd, hcm⟩
          · rintro ⟨f, hf, hty, hle, hcm⟩
            intro h0
            rcases List.append_eq_nil.1 h0 with ⟨h1, h2⟩
            rcases List.mem_cons.1 hf with h3 | h3
            · rw [h3] at hcm
              exact hcm (List.map_eq_nil_iff.1 h1)
            · exact ih.2 ⟨f, h3, hty, hle, hcm⟩ h2
      · rw [todayCommitsOf, if_pos (by simp [ht]), ih]
        constructor
        · rintro ⟨f, hf, hp⟩
          exact ⟨f, List.mem_cons_of_mem e hf, hp⟩
        · rintro ⟨f, hf, hp⟩
          rcases List.mem_cons.1 hf with h1 | h1
          · exact absurd (h1 ▸ hp.1) ht
          · exact ⟨f, h1, hp⟩


theorem check_github_ok (env : ProbeEnv) (u : String) (st : GitHubStatus)
    (h : env.github u = Except.ok st) :
    check_and_notify_user env u "github"
      = if st.has_commits_today = false then githubReminder u
        else completedResult := by
  simp [check_and_notify_user, h]

theorem check_github_err (env : ProbeEnv) (u e : String)
    (h : env.github u = Except.error e) :
    check_and_notify_user env u "github" = errorResult e := by
  simp [check_and_notify_user, h]

theorem check_leetcode_ok (env : ProbeEnv) (u : String) (st : LeetCodeStatus)
    (h : env.leetcode u = Except.ok st) :
    check_and_notify_user env u "leetcode"
      = if st.potd_solved = false then leetcodeReminder u st.potd_title
        else completedResult := by
  simp [check_and_notify_user, h]

theorem check_leetcode_err (env : ProbeEnv) (u e : String)
    (h : env.leetcode u = Except.error e) :
    check_and_notify_user env u "leetcode" = errorResult e := by
  simp [check_and_notify_user, h]

theorem check_other_platform (env : ProbeEnv) (u p : String)
    (h1 : p ≠ "github") (h2 : p ≠ "leetcode") :
    check_and_notify_user env u p = completedResult := by
  unfold check_and_notify_user
  rw [if_neg h1, if_neg h2]

/-- Claim C10: for every probe environment, username and platform string,
`check_and_notify_user` is total and returns a dict whose `"status"` key
is one of `"pending"`, `"completed"`, `"error"`; probe exceptions are
caught by its `except` clause and never propagate. -/
theorem C10_evaluator_total (env : ProbeEnv) (username platform : String) :
    (check_and_notify_user env username platform).status = "pending" ∨
    (check_and_notify_user env username platform).status = "completed" ∨
    (check_and_notify_user env username platform).status = "error" := by
  by_cases h1 : platform = "github"
  · subst h1
    cases hg : env.github username with
    | error e => rw [check_github_err env username e hg]; right; right; rfl
    | ok st =>
        rw [check_github_ok env username st hg]
        by_cases h : st.has_commits_today = false
        · rw [if_pos h]; left; rfl
        · rw [if_neg h]; right; left; rfl
  · by_cases h2 : platform = "leetcode"
    · subst h2
      cases hg : env.leetcode username with
      | error e => rw [check_leetcode_err env username e hg]; right; right; rfl
      | ok st =>
          rw [check_leetcode_ok env username st hg]
          by_cases h : st.potd_solved = false
          · rw [if_pos h]; left; rfl
          · rw [if_neg h]; right; left; rfl
    · rw [check_other_platform env username platform h1 h2]; right; left; rfl

/-- Claim C3, counterexample: for the unsupported platform string
`"gitlab"`, `check_and_notify_user` falls through to
`return \x7b"status": "completed"\x7d`, a success outcome, not the
`error` outcome the claim requires. -/
theorem C3_counterexample :
    (check_and_notify_user envIdle "alice" "gitlab").status = "completed" ∧
    (check_and_notify_user envIdle "alice" "gitlab").status ≠ "error" := by
  constructor
  · rfl
  · intro h
    simp [check_and_notify_user, completedResult] at h

/-- Claim C3, amended: for every platform value that is neither
`"github"` nor `"leetcode"`, the evaluator returns the plain
`\x7b"status": "completed"\x7d` dict — no process-level failure, but a
`completed` outcome rather than the `error` outcome the spec states. -/
theorem C3_amended (env : ProbeEnv) (username platform : String)
    (h1 : platform ≠ "github") (h2 : platform ≠ "leetcode") :
    check_and_notify_user env username platform = completedResult := by
  unfold check_and_notify_user
  rw [if_neg h1, if_neg h2]

/-- Claim C3, witness for the amended theorem at platform `"gitlab"`. -/
theorem C3_witness :
    check_and_notify_user envIdle "alice" "gitlab" = completedResult :=
  C3_amended envIdle "alice" "gitlab" (by decide) (by decide)

/-- Claim C5: whenever the platform probe succeeds and reports the
activity as present (`has_commits_today = true`, `potd_solved = true`),
the evaluator returns exactly the `\x7b"status": "completed"\x7d` dict,
which carries no reminder message. -/
theorem C5_completed_on_activity (env : ProbeEnv) (username : String) :
    (∀ st, env.github username = Except.ok st → st.has_commits_today = true →
      check_and_notify_user env username "github" = completedResult ∧
      (check_and_notify_user env username "github").message = none) ∧
    (∀ st, env.leetcode username = Except.ok st → st.potd_solved = true →
      check_and_notify_user env username "leetcode" = completedResult ∧
      (check_and_notify_user env username "leetcode").message = none) := by
  constructor
  · intro st hok hact
    have h : check_and_notify_user env username "github" = completedResult := by
      rw [check_github_ok env username st hok, if_neg (by simp [hact])]
    exact ⟨h, by rw [h]; rfl⟩
  · intro st hok hact
    have h : check_and_notify_user env username "leetcode" = completedResult := by
      rw [check_leetcode_ok env username st hok, if_neg (by simp [hact])]
    exact ⟨h, by rw [h]; rfl⟩

/-- Claim C5, witness: under `envDone` both probes report the activity
done today and both evaluations are `completed`. -/
theorem C5_witness :
    check_and_notify_user envDone "alice" "github" = completedResult ∧
    check_and_notify_user envDone "alice" "leetcode" = completedResult :=
  ⟨((C5_completed_on_activity envDone "alice").1 ghStatusSome rfl rfl).1,
   ((C5_completed_on_activity envDone "alice").2 lcStatusSolved rfl rfl).1⟩

/-- Claim C2: when a probe raises (any classified failure, carried as the
exception text), the evaluator returns the
`\x7b"status": "error", "error": str(e)\x7d` dict instead of
propagating; and the tick still logs one record per due trigger — with
insertions succeeding, the appended records are exactly one `evalRecord`
per due trigger, in order. -/
theorem C2_probe_error_handled (env : ProbeEnv) (store : List Trigger)
    (now : String) (checkedAt : Int) :
    process_triggers env store now checkedAt (fun _ => true)
      = (findDueTriggers store now).map (evalRecord env checkedAt) ∧
    ∀ t, t ∈ findDueTriggers store now →
      (∀ e, t.platform = "github" → env.github t.username = Except.error e →
        (evalRecord env checkedAt t).result = errorResult e) ∧
      (∀ e, t.platform = "leetcode" → env.leetcode t.username = Except.error e →
        (evalRecord env checkedAt t).result = errorResult e) := by
  constructor
  · exact insertLoop_all_ok env checkedAt (findDueTriggers store now)
  · intro t _
    constructor
    · intro e hp herr
      show check_and_notify_user env t.username t.platform = errorResult e
      rw [hp]
      exact check_github_err env t.username e herr
    · intro e hp herr
      show check_and_notify_user env t.username t.platform = errorResult e
      rw [hp]
      exact check_leetcode_err env t.username e herr

/-- Claim C2, witness: with both probes raising (`envIdle`), a tick over
a two-trigger store still logs both records, and the first record is the
error dict carrying the exception text. -/
theorem C2_witness :
    process_triggers envIdle [trigX, trigY] "09:00" 0 (fun _ => true)
      = [evalRecord envIdle 0 trigX, evalRecord envIdle 0 trigY] ∧
    (evalRecord envIdle 0 trigX).result
      = errorResult "GitHub API rate limit exceeded" := by
  constructor
  · rw [(C2_probe_error_handled envIdle [trigX, trigY] "09:00" 0).1]
    rfl
  · exact ((C2_probe_error_handled envIdle [trigX, trigY] "09:00" 0).2 trigX
      (by decide)).1 "GitHub API rate limit exceeded" rfl rfl

/-- Claim C4: whenever the platform probe succeeds and reports the
activity as absent, the evaluator fires: the result has status
`"pending"` and a non-empty reminder message containing the username
(and, for the leetcode platform, the title of the day's problem). -/
theorem C4_fired_on_absence (env : ProbeEnv) (username : String) :
    (∀ st, env.github username = Except.ok st →
      st.has_commits_today = false →
      (check_and_notify_user env username "github").status = "pending" ∧
      ∃ m, (check_and_notify_user env username "github").message = some m ∧
        0 < m.length ∧ ∃ a b, m = a ++ username ++ b) ∧
    (∀ st, env.leetcode username = Except.ok st → st.potd_solved = false →
      (check_and_notify_user env username "leetcode").status = "pending" ∧
      ∃ m, (check_and_notify_user env username "leetcode").message = some m ∧
        0 < m.length ∧ (∃ a b, m = a ++ username ++ b) ∧
        ∃ a b, m = a ++ st.potd_title ++ b) := by
  constructor
  · intro st hok hact
    have h : check_and_notify_user env username "github"
        = githubReminder username := by
      rw [check_github_ok env username st hok, if_pos hact]
    refine ⟨by rw [h]; rfl, ?_⟩
    refine ⟨"Hey " ++ username ++
      "! You haven\x27t made any commits today. Time to code! 💻",
      by rw [h]; rfl, ?_, "Hey ",
      "! You haven\x27t made any commits today. Time to code! 💻", rfl⟩
    rw [String.length_append, String.length_append]
    have h4 : ("Hey " : String).length = 4 := rfl
    omega
  · intro st hok hact
    have h : check_and_notify_user env username "leetcode"
        = leetcodeReminder username st.potd_title := by
      rw [check_leetcode_ok env username st hok, if_pos hact]
    refine ⟨by rw [h]; rfl, ?_⟩
    refine ⟨"Hey " ++ username ++ "! Today\x27s LeetCode POTD \x27" ++
      st.potd_title ++ "\x27 is waiting for you! 🧠", by rw [h]; rfl, ?_, ?_, ?_⟩
    · rw [String.length_append, String.length_append, String.length_append,
        String.length_append]
      have h4 : ("Hey " : String).length = 4 := rfl
      omega
    · exact ⟨"Hey ", "! Today\x27s LeetCode POTD \x27" ++ st.potd_title ++
        "\x27 is waiting for you! 🧠", by simp [String.append_assoc]⟩
    · exact ⟨"Hey " ++ username ++ "! Today\x27s LeetCode POTD \x27",
        "\x27 is waiting for you! 🧠", rfl⟩

/-- Claim C4, witness: under `envActive` both probes succeed and report
no activity, and both evaluations fire with status `"pending"`. -/
theorem C4_witness :
    (check_and_notify_user envActive "alice" "github").status = "pending" ∧
    (check_and_notify_user envActive "alice" "leetcode").status = "pending" :=
  ⟨((C4_fired_on_absence envActive "alice").1 ghStatusNone rfl rfl).1,
   ((C4_fired_on_absence envActive "alice").2 lcStatusUnsolved rfl rfl).1⟩

/-- Claim C8: whenever `get_potd_status` succeeds it reports
`potd_solved = false` (the hard-coded no-authenticated-session
limitation), so a successful leetcode evaluation through it always fires
(`"pending"`) and is never `"completed"`. -/
theorem C8_leetcode_never_solved (fetched : Except String DailyChallenge)
    (username : String) (check_ts : Int) (st : LeetCodeStatus)
    (h : get_potd_status fetched username check_ts = Except.ok st) :
    st.potd_solved = false ∧
    ∀ gh : String → Except String GitHubStatus,
      (check_and_notify_user
          ⟨gh, fun v => get_potd_status fetched v check_ts⟩
          username "leetcode").status = "pending" ∧
      (check_and_notify_user
          ⟨gh, fun v => get_potd_status fetched v check_ts⟩
          username "leetcode").status ≠ "completed" := by
  have hsolved : st.potd_solved = false := by
    cases fetched with
    | error e => exact absurd h (by simp [get_potd_status])
    | ok d =>
        simp only [get_potd_status] at h
        injection h with h3
        rw [← h3]
  refine ⟨hsolved, fun gh => ?_⟩
  have heval : check_and_notify_user
      ⟨gh, fun v => get_potd_status fetched v check_ts⟩ username "leetcode"
      = leetcodeReminder username st.potd_title := by
    rw [check_leetcode_ok _ username st h, if_pos hsolved]
  constructor
  · rw [heval]; rfl
  · rw [heval]; intro hc
    simp [leetcodeReminder] at hc

/-- Claim C8, witness at the sample daily challenge. -/
theorem C8_witness :
    lcFromSample.potd_solved = false ∧
    (check_and_notify_user
        ⟨envIdle.github, fun v => get_potd_status (Except.ok dcSample) v 0⟩
        "alice" "leetcode").status = "pending" :=
  ⟨(C8_leetcode_never_solved (Except.ok dcSample) "alice" 0 lcFromSample rfl).1,
   ((C8_leetcode_never_solved (Except.ok dcSample) "alice" 0 lcFromSample
      rfl).2 envIdle.github).1⟩

/-- Claim C9: `check_commits_today` reports activity exactly when some
push event at or after UTC midnight carries a commit, and every commit in
the returned list stems from an event at or after UTC midnight; earlier
events never contribute. -/
theorem C9_utc_day_boundary (today_start : Int) (events : List GHEvent)
    (username : String) (check_ts : Int) :
    ((check_commits_today today_start events username
        check_ts).has_commits_today = true ↔
      ∃ e, e ∈ events ∧ e.type = "PushEvent" ∧
        today_start ≤ e.created_at ∧ e.commits ≠ []) ∧
    ∀ c, c ∈ (check_commits_today today_start events username
        check_ts).commits → today_start ≤ c.committed_date := by
  constructor
  · show decide (0 < (todayCommitsOf today_start events).length) = true ↔ _
    rw [decide_eq_true_iff, List.length_pos]
    exact todayCommitsOf_ne_nil today_start events
  · intro c hc
    exact todayCommitsOf_date today_start events c hc

/-- Claim C9, witness at a single push event with timestamp 5 and a day
start of 0. -/
theorem C9_witness :
    (check_commits_today 0 [evSample] "alice" 0).has_commits_today = true ∧
    (0 : Int) ≤ (mkCommitInfo evSample ghcSample).committed_date :=
  ⟨(C9_utc_day_boundary 0 [evSample] "alice" 0).1.2
    ⟨evSample, by decide, rfl, by decide, by decide⟩,
   (C9_utc_day_boundary 0 [evSample] "alice" 0).2
    (mkCommitInfo evSample ghcSample) (by decide)⟩

/-- Claim C1, counterexample: `bigStore` holds 1001 triggers all due at
09:00, but `to_list(1000)` caps the fetch, so the tick appends only 1000
records — the due triggers are not all processed. -/
theorem C1_counterexample :
    (bigStore.filter (isDue "09:00")).length = 1001 ∧
    (process_triggers envIdle bigStore "09:00" 0 (fun _ => true)).length
      = 1000 := by
  have hf : bigStore.filter (isDue "09:00")
      = List.replicate 1000 trigX ++ [trigY] := by
    unfold bigStore
    rw [List.filter_append, List.filter_replicate,
      if_pos (show isDue "09:00" trigX = true from by decide),
      List.filter_cons,
      if_pos (show isDue "09:00" trigY = true from by decide),
      List.filter_nil]
  constructor
  · rw [hf, List.length_append, List.length_replicate]
    decide
  · unfold process_triggers findDueTriggers
    rw [insertLoop_all_ok, List.length_map, List.length_take, hf,
      List.length_append, List.length_replicate]
    decide

/-- Claim C1, amended: within one tick the records are exactly one per
fetched due trigger — no duplicates, no omissions among them, each record
complete, even when probes fail — but the fetch is capped at the first
1000 matches, so with more than 1000 due triggers the rest are omitted. -/
theorem C1_amended (env : ProbeEnv) (store : List Trigger) (now : String)
    (checkedAt : Int) (tid : String) :
    (process_triggers env store now checkedAt (fun _ => true)).length
      = min 1000 (store.filter (isDue now)).length ∧
    ((process_triggers env store now checkedAt (fun _ => true)).filter
        (fun r => r.trigger_id == tid)).length
      = ((findDueTriggers store now).filter (fun t => t.id == tid)).length ∧
    ∀ r, r ∈ process_triggers env store now checkedAt (fun _ => true) →
      r.checked_at = checkedAt ∧
      ∃ t, t ∈ store ∧ isDue now t = true ∧ r = evalRecord env checkedAt t ∧
        r.trigger_id = t.id ∧ r.username = t.username ∧
        r.platform = t.platform ∧
        r.result = check_and_notify_user env t.username t.platform := by
  refine ⟨?_, ?_, ?_⟩
  · unfold process_triggers findDueTriggers
    rw [insertLoop_all_ok, List.length_map, List.length_take]
  · unfold process_triggers
    rw [insertLoop_all_ok]
    exact length_filter_map_evalRecord env checkedAt tid
      (findDueTriggers store now)
  · intro r hr
    unfold process_triggers at hr
    rcases insertLoop_mem _ env checkedAt _ r hr with ⟨t, ht, he⟩
    have hts : t ∈ store.filter (isDue now) :=
      List.take_subset 1000 _ ht
    rcases List.mem_filter.1 hts with ⟨hmem, hdue⟩
    subst he
    exact ⟨rfl, t, hmem, hdue, rfl, rfl, rfl, rfl, rfl⟩

/-- Claim C1, witness at a one-trigger store. -/
theorem C1_witness :
    (evalRecord envActive 0 trigX).checked_at = 0 ∧
    ∃ t, t ∈ [trigX] ∧ isDue "09:00" t = true ∧
      evalRecord envActive 0 trigX = evalRecord envActive 0 t ∧
      (evalRecord envActive 0 trigX).trigger_id = t.id ∧
      (evalRecord envActive 0 trigX).username = t.username ∧
      (evalRecord envActive 0 trigX).platform = t.platform ∧
      (evalRecord envActive 0 trigX).result
        = check_and_notify_user envActive t.username t.platform :=
  (C1_amended envActive [trigX] "09:00" 0 "a").2.2
    (evalRecord envActive 0 trigX) (by decide)

/-- Claim C6, counterexample: `trigY` is enabled and its trigger time
equals the current minute, yet it is not selected, because 1000 other
matching triggers precede it and the fetch is capped at 1000. -/
theorem C6_counterexample :
    trigY ∈ bigStore ∧ trigY.enabled = true ∧
    trigY.trigger_time = "09:00" ∧
    trigY ∉ findDueTriggers bigStore "09:00" := by
  have hf : bigStore.filter (isDue "09:00")
      = List.replicate 1000 trigX ++ [trigY] := by
    unfold bigStore
    rw [List.filter_append, List.filter_replicate,
      if_pos (show isDue "09:00" trigX = true from by decide),
      List.filter_cons,
      if_pos (show isDue "09:00" trigY = true from by decide),
      List.filter_nil]
  refine ⟨?_, rfl, rfl, ?_⟩
  · show trigY ∈ List.replicate 1000 trigX ++ [trigY]
    exact List.mem_append.2 (Or.inr (List.mem_singleton.2 rfl))
  · unfold findDueTriggers
    rw [hf, List.take_append_eq_append_take, List.take_replicate,
      List.length_replicate, Nat.sub_self, List.take_zero, List.append_nil]
    intro hmem
    rcases List.mem_replicate.1 hmem with ⟨_, h2⟩
    exact absurd h2 (by decide)

/-- Claim C6, amended: selection implies enabled and exact "HH:MM" string
equality; the converse holds whenever at most 1000 triggers match (the
`to_list(1000)` cap); and every record of a tick originates from an
enabled trigger whose time equals the current minute, so disabled
triggers never produce records. -/
theorem C6_amended (store : List Trigger) (now : String) (t : Trigger) :
    (t ∈ findDueTriggers store now →
      t.enabled = true ∧ t.trigger_time = now) ∧
    ((store.filter (isDue now)).length ≤ 1000 → t ∈ store →
      t.enabled = true → t.trigger_time = now →
      t ∈ findDueTriggers store now) ∧
    ∀ env checkedAt insertOk r,
      r ∈ process_triggers env store now checkedAt insertOk →
      ∃ u, u ∈ store ∧ u.enabled = true ∧ u.trigger_time = now ∧
        r.trigger_id = u.id ∧ r.username = u.username ∧
        r.platform = u.platform := by
  refine ⟨?_, ?_, ?_⟩
  · intro h
    have hts : t ∈ store.filter (isDue now) := List.take_subset 1000 _ h
    rcases List.mem_filter.1 hts with ⟨_, hdue⟩
    rcases Bool.and_eq_true_iff.1 hdue with ⟨htime, hen⟩
    exact ⟨hen, by simpa using htime⟩
  · intro hlen hmem hen htime
    unfold findDueTriggers
    rw [List.take_of_length_le hlen]
    exact List.mem_filter.2 ⟨hmem, by simp [isDue, htime, hen]⟩
  · intro env checkedAt insertOk r hr
    unfold process_triggers at hr
    rcases insertLoop_mem insertOk env checkedAt _ r hr with ⟨u, hu, he⟩
    have hus : u ∈ store.filter (isDue now) := List.take_subset 1000 _ hu
    rcases List.mem_filter.1 hus with ⟨humem, hudue⟩
    rcases Bool.and_eq_true_iff.1 hudue with ⟨hutime, huen⟩
    subst he
    exact ⟨u, humem, huen, by simpa using hutime, rfl, rfl, rfl⟩

/-- Claim C6, witness at a one-trigger store: `trigX` is matched, is
selected, and the record produced for it points back to it. -/
theorem C6_witness :
    (trigX.enabled = true ∧ trigX.trigger_time = "09:00") ∧
    trigX ∈ findDueTriggers [trigX] "09:00" ∧
    ∃ u, u ∈ [trigX] ∧ u.enabled = true ∧ u.trigger_time = "09:00" ∧
      (evalRecord envIdle 0 trigX).trigger_id = u.id ∧
      (evalRecord envIdle 0 trigX).username = u.username ∧
      (evalRecord envIdle 0 trigX).platform = u.platform :=
  ⟨(C6_amended [trigX] "09:00" trigX).1 (by decide),
   (C6_amended [trigX] "09:00" trigX).2.1 (by decide) (by decide) rfl rfl,
   (C6_amended [trigX] "09:00" trigX).2.2 envIdle 0 (fun _ => true)
     (evalRecord envIdle 0 trigX) (by decide)⟩

/-- Claim C7, counterexample: two triggers are due, the insertion of the
first record fails, and the tick appends nothing at all — the second due
trigger is not evaluated or logged, because the exception of `insert_one`
escapes the `for` loop into the cycle-level `except`. -/
theorem C7_counterexample :
    trigY ∈ findDueTriggers [trigX, trigY] "09:00" ∧
    process_triggers envIdle [trigX, trigY] "09:00" 0
      (fun r => !(r.trigger_id == "a")) = [] := by
  constructor
  · decide
  · decide

/-- Claim C7, amended: an `insert_one` failure aborts the cycle (the
exception is logged at cycle level): the records actually appended in a
tick are exactly the longest prefix of the due triggers' records whose
insertions succeed; the failing record and every later due trigger of
that tick are dropped. -/
theorem C7_amended (env : ProbeEnv) (store : List Trigger) (now : String)
    (checkedAt : Int) (insertOk : NotificationRecord → Bool) :
    process_triggers env store now checkedAt insertOk
      = ((findDueTriggers store now).map
          (evalRecord env checkedAt)).takeWhile insertOk :=
  insertLoop_eq_takeWhile insertOk env checkedAt (findDueTriggers store now)
